import Mathlib

/-!
Verification of the BnanR render-graph core (`src/BnanR/core/bnan_render_graph/`
together with the barrier-building code in `src/BnanR/core/bnan_device.rs` and
the constants in `src/BnanR/core/bnan_rendering.rs`).

The development is a shallow embedding: Vulkan handles (images, views, command
buffers) are opaque numeric identifiers, `ArcMut<T>` wrappers are elided (all
recording is single-threaded and pass callbacks receive only an immutable
borrow of the graph, so they cannot alter the embedded state), and GPU-side
calls (fence waits, submission, presentation) are represented by their
observable outcomes.  Fallible operations (`todo!`, `.unwrap()` on a failed
barrier build, out-of-range indexing) are modelled with `Except`.

The repository contains two revisions of the pass-declaration type
`RenderPassResource`: `graph.rs` (`BnanRenderGraph::execute`) and the sample
applications `BnanR-Meshlet-Raster-Sample`/`BnanR-Simple-Raytracing-Sample`
consume the revision whose fields are `handle`, `stage`, `layout`,
`resolve_target` and `use_previous_frame`; `pass.rs` holds a revision keyed by
a `ResourceUsage` value and an `AttachmentConfig`.  Both are embedded: the
first (the one barrier synthesis actually reads) as `RenderPassResource`, the
second as `Pass.RenderPassResource`.
-/

namespace BnanR

/-- Embeds `FRAMES_IN_FLIGHT` from `bnan_rendering.rs` line 21. -/
def FRAMES_IN_FLIGHT : Nat := 2

/-- Embeds `vk::QUEUE_FAMILY_IGNORED` (`~0u32`). -/
def QUEUE_FAMILY_IGNORED : Nat := 4294967295

/-- The `vk::ImageLayout` values the render-graph code manipulates. -/
inductive ImageLayout where
  | undefined
  | general
  | colorAttachmentOptimal
  | depthStencilAttachmentOptimal
  | shaderReadOnlyOptimal
  | transferSrcOptimal
  | transferDstOptimal
  | presentSrcKHR
deriving DecidableEq, Repr

/-- The `vk::PipelineStageFlags2` values the render-graph code manipulates
(each appears as a single flag, never as a mask union). -/
inductive PipelineStage2 where
  | none
  | colorAttachmentOutput
  | earlyFragmentTests
  | fragmentShader
  | computeShader
  | taskShaderEXT
  | transfer
  | allCommands
deriving DecidableEq, Repr

/-- The `vk::AccessFlags2` values the render-graph code manipulates. -/
inductive AccessFlags2 where
  | none
  | colorAttachmentWrite
  | depthStencilAttachmentWrite
  | shaderRead
  | shaderStorageRead
  | shaderStorageWrite
  | transferRead
  | transferWrite
  | memoryWrite
deriving DecidableEq, Repr

/-- Embeds `vk::ImageAspectFlags` as used by the barrier builder. -/
inductive AspectFlags where
  | color
  | depth
deriving DecidableEq, Repr

/-- Embeds `vk::ResolveModeFlags` values used by attachment building. -/
inductive ResolveMode where
  | average
  | max
deriving DecidableEq, Repr

/-- Embeds `vk::AttachmentLoadOp` values used. -/
inductive AttachmentLoadOp where
  | clear
  | load
  | dontCare
deriving DecidableEq, Repr

/-- Embeds `vk::AttachmentStoreOp` values used. -/
inductive AttachmentStoreOp where
  | store
  | dontCare
deriving DecidableEq, Repr

/-- Embeds `vk::ClearValue` (a union in Vulkan; the code writes either the color or
the depth/stencil member).  The `f32` components are embedded as rationals. -/
inductive ClearValue where
  | color (c0 c1 c2 c3 : Rat)
  | depthStencil (depth : Rat) (stencil : Nat)
deriving DecidableEq, Repr

/-- Embeds `vk::Extent3D`. -/
structure Extent3D where
  width : Nat
  height : Nat
  depth : Nat
deriving DecidableEq, Repr

/-- Embeds `vk::Extent2D`. -/
structure Extent2D where
  width : Nat
  height : Nat
deriving DecidableEq, Repr

/-- Embeds `BnanImage` (`bnan_image.rs`), restricted to the fields the render graph
reads: the raw image handle, its view, its extent and its mip count.  The
device pointer, allocation, format and ownership flag are never consulted by
the graph code and are elided. -/
structure BnanImage where
  image : Nat
  image_view : Nat
  image_extent : Extent3D
  mip_levels : Nat
deriving DecidableEq, Repr

/-- Embeds `BnanImage::from_image`: wraps an existing (swapchain) image; `mip_levels`
is fixed to 1. -/
def BnanImage.from_image (image : Nat) (image_view : Nat) (image_extent : Extent3D) :
    BnanImage :=
  { image := image, image_view := image_view, image_extent := image_extent, mip_levels := 1 }

/-- Embeds `BnanBuffer` (`bnan_buffer.rs`), restricted to its raw handle. -/
structure BnanBuffer where
  buffer : Nat
deriving DecidableEq, Repr

/-- A fixed-size per-frame array `[T; FRAMES_IN_FLIGHT]` with
`FRAMES_IN_FLIGHT = 2`.  Rust indexing `a[i]` panics for `i ≥ 2`; callers of
`get?` surface that case as `none` or as an explicit error. -/
structure FrameArray (α : Type) where
  f0 : α
  f1 : α
deriving DecidableEq, Repr

/-- Index a `FrameArray`; `none` corresponds to the out-of-range panic. -/
def FrameArray.get? (a : FrameArray α) (i : Nat) : Option α :=
  match i with
  | 0 => some a.f0
  | 1 => some a.f1
  | _ => none

/-- Embeds `ResourceHandle` (`resource.rs` line 79): an opaque integer identity. -/
structure ResourceHandle where
  val : Nat
deriving DecidableEq, Repr

/-- Embeds `ResourceUsage` (`resource.rs` lines 10-20). -/
inductive ResourceUsage where
  | ColorAttachment
  | DepthStencilAttachment
  | DepthStencilResolve
  | ShaderRead
  | StorageRead
  | StorageWrite
  | TransferSrc
  | TransferDst
  | Present
deriving DecidableEq, Repr

/-- Embeds `ResourceUsage::get_stage_and_access` (`resource.rs` lines 23-62). -/
def ResourceUsage.get_stage_and_access : ResourceUsage → PipelineStage2 × AccessFlags2
  | .ColorAttachment => (.colorAttachmentOutput, .colorAttachmentWrite)
  | .DepthStencilAttachment => (.earlyFragmentTests, .depthStencilAttachmentWrite)
  | .DepthStencilResolve => (.colorAttachmentOutput, .colorAttachmentWrite)
  | .ShaderRead => (.fragmentShader, .shaderRead)
  | .StorageRead => (.computeShader, .shaderStorageRead)
  | .StorageWrite => (.computeShader, .shaderStorageWrite)
  | .TransferSrc => (.transfer, .transferRead)
  | .TransferDst => (.transfer, .transferWrite)
  | .Present => (.none, .none)

/-- Embeds `ResourceUsage::get_layout` (`resource.rs` lines 64-75). -/
def ResourceUsage.get_layout : ResourceUsage → ImageLayout
  | .ColorAttachment => .colorAttachmentOptimal
  | .DepthStencilAttachment => .depthStencilAttachmentOptimal
  | .DepthStencilResolve => .depthStencilAttachmentOptimal
  | .ShaderRead => .shaderReadOnlyOptimal
  | .StorageRead => .general
  | .StorageWrite => .general
  | .TransferSrc => .transferSrcOptimal
  | .TransferDst => .transferDstOptimal
  | .Present => .presentSrcKHR

/-- Embeds `ResourceType` (`resource.rs` lines 82-86). -/
inductive ResourceType where
  | swapchainImage (image : BnanImage)
  | image (images : FrameArray BnanImage)
  | buffer (buffers : FrameArray BnanBuffer)
deriving DecidableEq, Repr

/-- Whether the resource is image-typed (the `matches!` test in `graph.rs`
line 324). -/
def ResourceType.isImageKind : ResourceType → Bool
  | .swapchainImage _ => true
  | .image _ => true
  | .buffer _ => false

/-- Whether the resource is buffer-typed (the complement of
`isImageKind`). -/
def ResourceType.isBufferKind : ResourceType → Bool
  | .buffer _ => true
  | _ => false

/-- Embeds `PhysicalResource` (`resource.rs` lines 88-96). -/
structure PhysicalResource where
  handle : ResourceHandle
  name : String
  resource : ResourceType
  current_layout : ImageLayout
  current_stage : PipelineStage2
  current_queue_family : Nat
deriving DecidableEq, Repr

/-- Embeds `PhysicalResource::new_image` (`resource.rs` lines 110-119). -/
def PhysicalResource.new_image (handle : ResourceHandle) (name : String)
    (images : FrameArray BnanImage) : PhysicalResource :=
  { handle := handle, name := name, resource := .image images,
    current_layout := .undefined, current_stage := .none,
    current_queue_family := QUEUE_FAMILY_IGNORED }

/-- Embeds `PhysicalResource::new_swapchain_image` (`resource.rs` lines 99-108). -/
def PhysicalResource.new_swapchain_image (handle : ResourceHandle) (name : String)
    (image : BnanImage) : PhysicalResource :=
  { handle := handle, name := name, resource := .swapchainImage image,
    current_layout := .undefined, current_stage := .none,
    current_queue_family := QUEUE_FAMILY_IGNORED }

/-- The registry's handle table: `HashMap<usize, PhysicalResource>` embedded
as an association list with unique keys maintained by `insertEntry`. -/
abbrev RegMap : Type := List (Nat × PhysicalResource)

/-- Embeds `HashMap::get` / `get_mut` lookup. -/
def lookupRes : RegMap → Nat → Option PhysicalResource
  | [], _ => none
  | (k, v) :: r, h => if k = h then some v else lookupRes r h

/-- Embeds `HashMap::insert`: replaces the entry when the key is present, otherwise
appends it. -/
def insertEntry (r : RegMap) (k : Nat) (v : PhysicalResource) : RegMap :=
  if (lookupRes r k).isSome then
    r.map (fun p => if p.1 = k then (k, v) else p)
  else
    r ++ [(k, v)]

/-- In-place mutation through `get_mut`: rewrite the entry at `k` with `f`,
leave everything else (including absence of the key) unchanged. -/
def mutateEntry (r : RegMap) (k : Nat) (f : PhysicalResource → PhysicalResource) : RegMap :=
  r.map (fun p => if p.1 = k then (p.1, f p.2) else p)

/-- The ways the per-frame path can abort: Rust panics (`todo!`, `.unwrap()`
on a failed barrier build, out-of-range indexing) and propagated Vulkan
errors (`return Err(e)`). -/
inductive Abort where
  | todoBufferBarriers
  | unsupportedTransition
  | frameOutOfRange
  | missingBackbuffer
  | vkError
deriving DecidableEq, Repr

/-- Embeds `vk::ImageMemoryBarrier2` as filled in by
`BnanDevice::build_image_transition_barrier` (`bnan_device.rs` lines 412-460). -/
structure Barrier where
  image : Nat
  old_layout : ImageLayout
  new_layout : ImageLayout
  aspect_mask : AspectFlags
  level_count : Nat
  layer_count : Nat
  src_access_mask : AccessFlags2
  src_stage_mask : PipelineStage2
  dst_access_mask : AccessFlags2
  dst_stage_mask : PipelineStage2
  src_queue_family_index : Nat
  dst_queue_family_index : Nat
deriving DecidableEq, Repr

/-- Source half of the fixed layout-to-(access, stage) inference table in
`build_image_transition_barrier` (`bnan_device.rs` lines 426-434); `none`
is the `bail!("unsupported layout transition")` arm.  The
`undefined_exec_stage` parameter is absent from the builder call sites in
`graph.rs`, so the `UNDEFINED` arm falls back to the `NONE` stage. -/
def srcAccessStage : ImageLayout → Option (AccessFlags2 × PipelineStage2)
  | .undefined => some (.none, .none)
  | .colorAttachmentOptimal => some (.colorAttachmentWrite, .colorAttachmentOutput)
  | .depthStencilAttachmentOptimal => some (.depthStencilAttachmentWrite, .earlyFragmentTests)
  | .transferSrcOptimal => some (.transferRead, .transfer)
  | .transferDstOptimal => some (.transferWrite, .transfer)
  | .shaderReadOnlyOptimal => some (.shaderRead, .fragmentShader)
  | _ => none

/-- Destination half of the same table (`bnan_device.rs` lines 436-446). -/
def dstAccessStage : ImageLayout → Option (AccessFlags2 × PipelineStage2)
  | .general => some (.memoryWrite, .allCommands)
  | .colorAttachmentOptimal => some (.colorAttachmentWrite, .colorAttachmentOutput)
  | .depthStencilAttachmentOptimal => some (.depthStencilAttachmentWrite, .earlyFragmentTests)
  | .transferSrcOptimal => some (.transferRead, .transfer)
  | .transferDstOptimal => some (.transferWrite, .transfer)
  | .shaderReadOnlyOptimal => some (.shaderRead, .fragmentShader)
  | .presentSrcKHR => some (.none, .none)
  | _ => none

/-- Embeds `BnanDevice::build_image_transition_barrier`: aspect from the new layout,
source/destination masks from the two fixed tables, `levels.unwrap_or(1)`,
`layers.unwrap_or(1)`.  An unsupported layout yields the `bail!` error, which
every graph call site turns into a panic via `.unwrap()` or `?`. -/
def buildImageTransitionBarrier (image : Nat) (old_layout new_layout : ImageLayout)
    (levels layers : Option Nat) : Except Abort Barrier :=
  let aspect := if new_layout = .depthStencilAttachmentOptimal then
    AspectFlags.depth else AspectFlags.color
  match srcAccessStage old_layout, dstAccessStage new_layout with
  | some (sa, ss), some (da, ds) =>
    .ok { image := image, old_layout := old_layout, new_layout := new_layout,
          aspect_mask := aspect, level_count := levels.getD 1, layer_count := layers.getD 1,
          src_access_mask := sa, src_stage_mask := ss,
          dst_access_mask := da, dst_stage_mask := ds,
          src_queue_family_index := QUEUE_FAMILY_IGNORED,
          dst_queue_family_index := QUEUE_FAMILY_IGNORED }
  | _, _ => .error .unsupportedTransition

/-- A recorded synchronization command.  `BnanBarrierBuilder::record` emits a
single `cmd_pipeline_barrier2` carrying the whole batch, or nothing when the
batch is empty. -/
inductive SyncCommand where
  | pipelineBarrier2 (barriers : List Barrier)
deriving DecidableEq, Repr

/-- Embeds `BnanBarrierBuilder::record`: no command for an empty batch, otherwise
one command carrying every accumulated barrier. -/
def recordSync (bs : List Barrier) : List SyncCommand :=
  if bs.isEmpty then [] else [.pipelineBarrier2 bs]

/-- The pass-declaration record consumed by `BnanRenderGraph::execute` (the
revision used by `graph.rs` and the sample applications): an explicit
required stage and layout per use, an optional resolve-target handle, and the
temporal flag. -/
structure RenderPassResource where
  handle : ResourceHandle
  stage : PipelineStage2
  layout : ImageLayout
  resolve_target : Option ResourceHandle
  use_previous_frame : Bool
deriving DecidableEq, Repr

/-- Embeds `RenderPass` (name plus declared input and output uses).  The execute
callback `Box<dyn Fn(&BnanRenderGraph, &BnanFrameInfo)>` receives only an
immutable borrow of the graph, so it cannot change any state embedded here;
it is therefore elided. -/
structure RenderPass where
  name : String
  inputs : List RenderPassResource
  outputs : List RenderPassResource
deriving DecidableEq, Repr

/-- One resolved use-site fed to `process_resource` in `execute`: the handle,
the required stage and layout, and the frame slot whose physical copy is
touched. -/
structure UseReq where
  handle : ResourceHandle
  stage : PipelineStage2
  layout : ImageLayout
  useFrame : Nat
deriving DecidableEq, Repr

/-- The hard-coded requirement `execute` imposes on a resolve-target use
(`graph.rs` lines 371-391): a depth output's resolve target is processed at
the early-fragment-tests stage in the depth-attachment layout; any other
output's resolve target at the color-output stage in the color-attachment
layout. -/
def resolveUseReq : ImageLayout → PipelineStage2 × ImageLayout
  | .depthStencilAttachmentOptimal => (.earlyFragmentTests, .depthStencilAttachmentOptimal)
  | _ => (.colorAttachmentOutput, .colorAttachmentOptimal)

/-- An input use (`graph.rs` lines 356-364): the temporal flag redirects the
use to frame slot `(frame_index + (FRAMES_IN_FLIGHT - 1)) % FRAMES_IN_FLIGHT`. -/
def inputUse (fi : Nat) (i : RenderPassResource) : UseReq :=
  { handle := i.handle, stage := i.stage, layout := i.layout,
    useFrame := if i.use_previous_frame then
      (fi + (FRAMES_IN_FLIGHT - 1)) % FRAMES_IN_FLIGHT else fi }

/-- An output use followed by its resolve-target use, if any
(`graph.rs` lines 366-393). -/
def outputUses (fi : Nat) (o : RenderPassResource) : List UseReq :=
  { handle := o.handle, stage := o.stage, layout := o.layout, useFrame := fi } ::
  (match o.resolve_target with
   | .none => []
   | .some rh =>
     [{ handle := rh, stage := (resolveUseReq o.layout).1,
        layout := (resolveUseReq o.layout).2, useFrame := fi }])

/-- All use-sites of a pass in the order `execute` processes them: every
input, then every output immediately followed by its resolve target. -/
def passUses (p : RenderPass) (fi : Nat) : List UseReq :=
  p.inputs.map (inputUse fi) ++ p.outputs.flatMap (outputUses fi)

/-- The `process_resource` closure in `execute` (`graph.rs` lines 320-354):
an unknown handle is skipped silently; a known resource needs a barrier when
its recorded layout differs (image-typed resources only) or its recorded
stage differs; a needed barrier is built from the recorded and required
layouts (`todo!` for buffers) and the recorded state is overwritten with the
requirement. -/
def processResource (r : RegMap) (bs : List Barrier) (u : UseReq) :
    Except Abort (RegMap × List Barrier) :=
  match lookupRes r u.handle.val with
  | .none => .ok (r, bs)
  | .some phys =>
    if (phys.resource.isImageKind = true ∧ phys.current_layout ≠ u.layout) ∨
        phys.current_stage ≠ u.stage then
      match phys.resource with
      | .swapchainImage img =>
        match buildImageTransitionBarrier img.image phys.current_layout u.layout
            Option.none Option.none with
        | .error e => .error e
        | .ok b =>
          .ok (mutateEntry r u.handle.val
                 (fun q => { q with current_layout := u.layout, current_stage := u.stage }),
               bs ++ [b])
      | .image imgs =>
        match imgs.get? u.useFrame with
        | .none => .error .frameOutOfRange
        | .some img =>
          match buildImageTransitionBarrier img.image phys.current_layout u.layout
              (some img.mip_levels) Option.none with
          | .error e => .error e
          | .ok b =>
            .ok (mutateEntry r u.handle.val
                   (fun q => { q with current_layout := u.layout, current_stage := u.stage }),
                 bs ++ [b])
      | .buffer _ => .error .todoBufferBarriers
    else
      .ok (r, bs)

/-- Folding `process_resource` over a list of use-sites, threading the
registry and the accumulated barrier batch. -/
def synthFold (r : RegMap) (bs : List Barrier) : List UseReq →
    Except Abort (RegMap × List Barrier)
  | [] => .ok (r, bs)
  | u :: us =>
    match processResource r bs u with
    | .error e => .error e
    | .ok (r', bs') => synthFold r' bs' us

/-- Barrier synthesis for one pass: the input/output/resolve loops of
`execute` (`graph.rs` lines 316-395), starting from an empty builder. -/
def synthPassBarriers (r : RegMap) (p : RenderPass) (fi : Nat) :
    Except Abort (RegMap × List Barrier) :=
  synthFold r [] (passUses p fi)

/-- Embeds `BnanRenderGraph` (`graph.rs` lines 21-44), restricted to the state the
claims concern: the handle table, the handle counter, the declared passes,
the current frame slot, the presentation-image handle, and the swapchain's
image list (stood in for the `BnanSwapchain` collaborator).  Command buffers,
semaphores, fences and the pending-transfer flags are GPU-side collaborators
whose observable outcomes enter through `execute`'s parameters. -/
structure BnanRenderGraph where
  resources : RegMap
  resource_counter : Nat
  passes : List RenderPass
  current_frame : Nat
  swapchain_resource_handle : Option ResourceHandle
  swapchain_images : List BnanImage
deriving DecidableEq, Repr

/-- Embeds `BnanRenderGraph::get_image` (`graph.rs` lines 166-174).  For a per-frame
image resource the Rust code indexes `images[frame]`, a panic when `frame ≥
FRAMES_IN_FLIGHT`; the claims only exercise in-range slots and unknown
handles, so that panic is surfaced as `none` here. -/
def BnanRenderGraph.get_image (g : BnanRenderGraph) (handle : ResourceHandle)
    (frame : Nat) : Option BnanImage :=
  (lookupRes g.resources handle.val).bind fun physical =>
    match physical.resource with
    | .image images => images.get? frame
    | .swapchainImage image => some image
    | .buffer _ => none

/-- Embeds `BnanRenderGraph::get_previous_frame_image` (`graph.rs` lines 190-193). -/
def BnanRenderGraph.get_previous_frame_image (g : BnanRenderGraph)
    (handle : ResourceHandle) (current_frame : Nat) : Option BnanImage :=
  g.get_image handle ((current_frame + FRAMES_IN_FLIGHT - 1) % FRAMES_IN_FLIGHT)

/-- Embeds `BnanRenderGraph::import_render_image` (`graph.rs` lines 195-206): bump
the counter (clamping it up to 1, a no-op after the increment), issue the
handle, register a fresh undefined-state physical resource, bump again. -/
def BnanRenderGraph.import_render_image (g : BnanRenderGraph) (name : String)
    (images : FrameArray BnanImage) : BnanRenderGraph × ResourceHandle :=
  let c := g.resource_counter + 1
  let c := if c ≤ 1 then 1 else c
  let handle := ResourceHandle.mk c
  ({ g with resource_counter := c + 1,
            resources := insertEntry g.resources handle.val
              (PhysicalResource.new_image handle name images) },
   handle)

/-- Embeds `BnanRenderGraph::update_render_image` (`graph.rs` lines 208-215): if the
handle is known, swap in the new backing images and reset the tracked layout
and stage; otherwise do nothing. -/
def BnanRenderGraph.update_render_image (g : BnanRenderGraph)
    (handle : ResourceHandle) (images : FrameArray BnanImage) : BnanRenderGraph :=
  { g with resources :=
      mutateEntry g.resources handle.val fun physical =>
        { physical with resource := .image images,
                        current_layout := .undefined,
                        current_stage := .none } }

/-- The backbuffer `PhysicalResource` record built at each acquisition
(`graph.rs` lines 285-292): the freshly acquired image, layout `UNDEFINED`,
stage `COLOR_ATTACHMENT_OUTPUT`. -/
def backbufferPhys (handle : ResourceHandle) (image : BnanImage) : PhysicalResource :=
  { handle := handle, name := "Backbuffer", resource := .swapchainImage image,
    current_layout := .undefined, current_stage := .colorAttachmentOutput,
    current_queue_family := QUEUE_FAMILY_IGNORED }

/-- Binding the freshly acquired presentation image (`graph.rs` lines
268-294): reuse the existing backbuffer handle (issuing one from the counter
only if none exists yet) and overwrite the registry entry with
`backbufferPhys`. -/
def bindSwapchainResource (g : BnanRenderGraph) (image : BnanImage) :
    BnanRenderGraph × ResourceHandle :=
  match g.swapchain_resource_handle with
  | .some h =>
    ({ g with resources := insertEntry g.resources h.val (backbufferPhys h image) }, h)
  | .none =>
    let h := ResourceHandle.mk g.resource_counter
    ({ g with resource_counter := g.resource_counter + 1,
              swapchain_resource_handle := some h,
              resources := insertEntry g.resources h.val (backbufferPhys h image) },
     h)

/-- The per-pass loop of `execute`: synthesize and record each pass's barrier
batch in declaration order, threading the registry. -/
def runPasses (r : RegMap) (fi : Nat) : List RenderPass →
    Except Abort (RegMap × List (List Barrier))
  | [] => .ok (r, [])
  | p :: ps =>
    match synthPassBarriers r p fi with
    | .error e => .error e
    | .ok (r', bs) =>
      match runPasses r' fi ps with
      | .error e => .error e
      | .ok (r'', rest) => .ok (r'', bs :: rest)

/-- Outcome of `acquire_next_image` (`graph.rs` lines 245-262): success with
an image index (the suboptimal flag in the returned pair is ignored by the
code), `ERROR_OUT_OF_DATE_KHR`, or any other error. -/
inductive AcquireOutcome where
  | ok (idx : Nat)
  | outOfDate
  | err
deriving DecidableEq, Repr

/-- Outcome of `queue_present` (`graph.rs` lines 597-606). -/
inductive PresentOutcome where
  | ok
  | suboptimal
  | outOfDate
  | err
deriving DecidableEq, Repr

/-- The externally observable effects of one `execute` call: whether surface
recreation was triggered (at acquisition or at presentation), the barrier
batch recorded before each pass body, and the final transition of the
presentation image to the present layout. -/
structure ExecEffects where
  recreatedOnAcquire : Bool
  recreatedOnPresent : Bool
  passBarriers : List (List Barrier)
  finalTransition : Option Barrier
deriving DecidableEq, Repr

/-- The effects of a degenerate (stale-acquisition) frame: recreation, no
pass work, no final transition. -/
def degenerateEffects : ExecEffects :=
  { recreatedOnAcquire := true, recreatedOnPresent := false,
    passBarriers := [], finalTransition := none }

/-- The tail of `execute` after the presentation image is bound (`graph.rs`
lines 296-609): run every pass's barrier synthesis, build the final
present-layout transition from the backbuffer's recorded layout (which this
transition does not itself update), handle the present outcome, and advance
the frame slot modulo `FRAMES_IN_FLIGHT`. -/
def executeAcquired (g : BnanRenderGraph) (h : ResourceHandle) (scImg : BnanImage)
    (pres : PresentOutcome) : Except Abort (BnanRenderGraph × ExecEffects) :=
  match runPasses g.resources g.current_frame g.passes with
  | .error e => .error e
  | .ok (r2, perPass) =>
    match lookupRes r2 h.val with
    | .none => .error .missingBackbuffer
    | .some phys =>
      match buildImageTransitionBarrier scImg.image phys.current_layout .presentSrcKHR
          Option.none Option.none with
      | .error e => .error e
      | .ok fb =>
        match pres with
        | .err => .error .vkError
        | _ =>
          .ok ({ g with resources := r2,
                        current_frame := (g.current_frame + 1) % FRAMES_IN_FLIGHT },
               { recreatedOnAcquire := false,
                 recreatedOnPresent := pres = .outOfDate ∨ pres = .suboptimal,
                 passBarriers := perPass,
                 finalTransition := some fb })

/-- Embeds `BnanRenderGraph::execute` (`graph.rs` lines 221-610).  A stale
acquisition triggers surface recreation and returns `Ok` immediately — before
the pass loop and before the frame-slot advance at line 608.  A successful
acquisition looks up the acquired image (a `Vec` index, panic when out of
range), binds it as the backbuffer resource and proceeds with the frame. -/
def BnanRenderGraph.execute (g : BnanRenderGraph) (acq : AcquireOutcome)
    (pres : PresentOutcome) : Except Abort (BnanRenderGraph × ExecEffects) :=
  match acq with
  | .err => .error .vkError
  | .outOfDate => .ok (g, degenerateEffects)
  | .ok idx =>
    match g.swapchain_images.get? idx with
    | .none => .error .frameOutOfRange
    | .some scImg =>
      let bound := bindSwapchainResource g scImg
      executeAcquired bound.1 bound.2 scImg pres

/-- Embeds `vk::RenderingAttachmentInfo` as filled in by the attachment-building
code; the resolve members (`RESOLVE_MODE_NONE` / null view in Vulkan's
defaults) are `Option`s here. -/
structure RenderingAttachmentInfo where
  image_view : Nat
  image_layout : ImageLayout
  load_op : AttachmentLoadOp
  store_op : AttachmentStoreOp
  clear_value : ClearValue
  resolve_image_view : Option Nat := none
  resolve_image_layout : Option ImageLayout := none
  resolve_mode : Option ResolveMode := none
deriving DecidableEq, Repr

/-- Embeds `CLEAR_COLOR` (`graph.rs` line 18). -/
def CLEAR_COLOR : ClearValue := .color 0.0118 0.0118 0.0118 1

/-- Embeds `CLEAR_DEPTH_STENCIL` (`graph.rs` line 19). -/
def CLEAR_DEPTH_STENCIL : ClearValue := .depthStencil 1 0

/-- Resolve the image an output touches for the current frame slot
(the `image_guard` match in `execute`, `graph.rs` lines 407-411). -/
def outputImage (r : RegMap) (handle : ResourceHandle) (fi : Nat) : Option BnanImage :=
  (lookupRes r handle.val).bind fun physical =>
    match physical.resource with
    | .swapchainImage image => some image
    | .image images => images.get? fi
    | .buffer _ => none

/-- The color-attachment descriptor `execute` builds for an output declared
in the color-attachment layout (`graph.rs` lines 404-450): clear/store with
the flat background color, and, when the resolve target resolves to an
image, the resolve view in the color-attachment layout with `AVERAGE` mode. -/
def buildColorAttachmentInfo (r : RegMap) (o : RenderPassResource) (fi : Nat) :
    Option RenderingAttachmentInfo :=
  if o.layout = .colorAttachmentOptimal then
    (outputImage r o.handle fi).map fun image =>
      let attachment : RenderingAttachmentInfo :=
        { image_view := image.image_view, image_layout := .colorAttachmentOptimal,
          load_op := .clear, store_op := .store, clear_value := CLEAR_COLOR }
      match o.resolve_target with
      | .none => attachment
      | .some rh =>
        match outputImage r rh fi with
        | .none => attachment
        | .some resolveImage =>
          { attachment with resolve_image_view := some resolveImage.image_view,
                            resolve_image_layout := some .colorAttachmentOptimal,
                            resolve_mode := some .average }
  else none

/-- The depth-attachment descriptor `execute` builds for an output declared
in the depth-stencil-attachment layout (`graph.rs` lines 452-499): clear at
far depth, and, when the resolve target resolves to an image, the resolve
view in the depth-stencil-attachment layout with `MAX` mode. -/
def buildDepthAttachmentInfo (r : RegMap) (o : RenderPassResource) (fi : Nat) :
    Option RenderingAttachmentInfo :=
  if o.layout = .depthStencilAttachmentOptimal then
    (outputImage r o.handle fi).map fun image =>
      let attachment : RenderingAttachmentInfo :=
        { image_view := image.image_view, image_layout := .depthStencilAttachmentOptimal,
          load_op := .clear, store_op := .store, clear_value := CLEAR_DEPTH_STENCIL }
      match o.resolve_target with
      | .none => attachment
      | .some rh =>
        match outputImage r rh fi with
        | .none => attachment
        | .some resolveImage =>
          { attachment with resolve_image_view := some resolveImage.image_view,
                            resolve_image_layout := some .depthStencilAttachmentOptimal,
                            resolve_mode := some .max }
  else none

namespace Pass

/-- Embeds `AttachmentConfig` (`pass.rs` lines 7-21). -/
structure AttachmentConfig where
  load_op : AttachmentLoadOp
  store_op : AttachmentStoreOp
  clear_value : ClearValue
deriving DecidableEq, Repr

/-- Embeds `AttachmentConfig::default` (`pass.rs` lines 13-21). -/
def AttachmentConfig.default : AttachmentConfig :=
  { load_op := .clear, store_op := .store,
    clear_value := .color 0.0065 0.0065 0.0065 1 }

/-- The `pass.rs` revision of `RenderPassResource` (lines 23-29), keyed by a
`ResourceUsage` and carrying an `AttachmentConfig`. -/
structure RenderPassResource where
  handle : ResourceHandle
  usage : ResourceUsage
  resolve_target : Option ResourceHandle
  is_temporal : Bool
  config : AttachmentConfig
deriving DecidableEq, Repr

/-- Embeds `RenderPassResource::create_base_attachment_info` (`pass.rs` lines
112-119). -/
def RenderPassResource.create_base_attachment_info (r : RenderPassResource)
    (view : Nat) (layout : ImageLayout) : RenderingAttachmentInfo :=
  { image_view := view, image_layout := layout,
    load_op := r.config.load_op, store_op := r.config.store_op,
    clear_value := r.config.clear_value }

/-- Embeds `RenderPassResource::create_color_attachment_info` (`pass.rs` lines
92-100): color-attachment layout, and an `AVERAGE`-mode resolve binding in
the same layout when a resolve view is supplied. -/
def RenderPassResource.create_color_attachment_info (r : RenderPassResource)
    (view : Nat) (resolve_view : Option Nat) : RenderingAttachmentInfo :=
  let info := r.create_base_attachment_info view .colorAttachmentOptimal
  match resolve_view with
  | .none => info
  | .some rv =>
    { info with resolve_image_view := some rv,
                resolve_image_layout := some .colorAttachmentOptimal,
                resolve_mode := some .average }

/-- Embeds `RenderPassResource::create_depth_attachment_info` (`pass.rs` lines
102-110): depth-stencil-attachment layout, and a `MAX`-mode resolve binding
in the same layout when a resolve view is supplied. -/
def RenderPassResource.create_depth_attachment_info (r : RenderPassResource)
    (view : Nat) (resolve_view : Option Nat) : RenderingAttachmentInfo :=
  let info := r.create_base_attachment_info view .depthStencilAttachmentOptimal
  match resolve_view with
  | .none => info
  | .some rv =>
    { info with resolve_image_view := some rv,
                resolve_image_layout := some .depthStencilAttachmentOptimal,
                resolve_mode := some .max }

end Pass

/-- The recorded synchronization state of a handle: the pair (stage, layout)
the registry currently stores for it. -/
def stateOf (r : RegMap) (h : Nat) : Option (PipelineStage2 × ImageLayout) :=
  (lookupRes r h).map fun p => (p.current_stage, p.current_layout)

/-- Whether `h` currently resolves to an image-typed physical resource. -/
def isImageRes (r : RegMap) (h : Nat) : Bool :=
  match lookupRes r h with
  | some p => p.resource.isImageKind
  | none => false

/-- Whether `h` currently resolves to a buffer-typed physical resource
(unknown handles are not buffer-typed). -/
def isBufferRes (r : RegMap) (h : Nat) : Bool :=
  match lookupRes r h with
  | some p => p.resource.isBufferKind
  | none => false

/-- Modelled from the spec (§4.3/§8): a use-site counts when its required
(stage, layout) differs from the resource's previously recorded state; an
unknown handle has no recorded state and does not count. -/
def specDiffers (σ : Nat → Option (PipelineStage2 × ImageLayout)) (u : UseReq) : Bool :=
  match σ u.handle.val with
  | some sl => decide (sl ≠ (u.stage, u.layout))
  | none => false

/-- Overwrite one handle's recorded (stage, layout) in the spec-side state. -/
def updateState (σ : Nat → Option (PipelineStage2 × ImageLayout)) (h : Nat)
    (sl : PipelineStage2 × ImageLayout) : Nat → Option (PipelineStage2 × ImageLayout) :=
  fun k => if k = h then some sl else σ k

/-- Modelled from the spec (§8): the number of declared uses whose required
(stage, layout) differs from the previously recorded state, the recorded
state being updated to the requirement as each counted use is passed. -/
def specDifferingCount (σ : Nat → Option (PipelineStage2 × ImageLayout)) :
    List UseReq → Nat
  | [] => 0
  | u :: us =>
    if specDiffers σ u then
      1 + specDifferingCount (updateState σ u.handle.val (u.stage, u.layout)) us
    else
      specDifferingCount σ us

/-- The registry state under which `process_resource` emits no barrier for
`u`: the handle is unknown, or the recorded stage matches and (for
image-typed resources) the recorded layout matches. -/
def noBarrierNeeded (r : RegMap) (u : UseReq) : Prop :=
  ∀ p, lookupRes r u.handle.val = some p →
    p.current_stage = u.stage ∧ (p.resource.isImageKind = true → p.current_layout = u.layout)

/-- A pass whose use-sites never require the same resource in two different
(stage, layout) states. -/
def ConsistentUses (us : List UseReq) : Prop :=
  ∀ u ∈ us, ∀ v ∈ us, u.handle = v.handle → (u.stage, u.layout) = (v.stage, v.layout)

/-- The recorded stage of `h` after synthesizing one pass's barriers
(observation helper for concrete runs). -/
def stageAfterPass (r : RegMap) (p : RenderPass) (fi h : Nat) :
    Except Abort (Option PipelineStage2) :=
  match synthPassBarriers r p fi with
  | .error e => .error e
  | .ok (r1, _) => .ok ((lookupRes r1 h).map fun q => q.current_stage)

/-- The number of barriers an identical immediate re-run of a pass
synthesizes (observation helper for concrete runs). -/
def rerunBarrierCount (r : RegMap) (p : RenderPass) (fi : Nat) : Except Abort Nat :=
  match synthPassBarriers r p fi with
  | .error e => .error e
  | .ok (r1, _) =>
    match synthPassBarriers r1 p fi with
    | .error e => .error e
    | .ok (_, b2) => .ok b2.length

/-! Concrete inputs used by witnesses and counterexamples. -/

def imgA : BnanImage := { image := 1, image_view := 11, image_extent := ⟨8, 8, 1⟩, mip_levels := 1 }

def imgB : BnanImage := { image := 2, image_view := 12, image_extent := ⟨8, 8, 1⟩, mip_levels := 1 }

def imgC : BnanImage := { image := 3, image_view := 13, image_extent := ⟨8, 8, 1⟩, mip_levels := 1 }

def imgD : BnanImage := { image := 4, image_view := 14, image_extent := ⟨8, 8, 1⟩, mip_levels := 1 }

def faAB : FrameArray BnanImage := ⟨imgA, imgB⟩

def faCD : FrameArray BnanImage := ⟨imgC, imgD⟩

def physDepth : PhysicalResource :=
  { handle := ⟨1⟩, name := "Depth", resource := .image faAB,
    current_layout := .undefined, current_stage := .none,
    current_queue_family := QUEUE_FAMILY_IGNORED }

def physResolve : PhysicalResource :=
  { handle := ⟨2⟩, name := "ResolvedDepth", resource := .image faCD,
    current_layout := .undefined, current_stage := .none,
    current_queue_family := QUEUE_FAMILY_IGNORED }

/-- A registry holding a multisampled depth target and its resolve target. -/
def regDepth : RegMap := [(1, physDepth), (2, physResolve)]

/-- A declared depth output carrying a depth resolve target. -/
def outDepthResolve : RenderPassResource :=
  { handle := ⟨1⟩, stage := .earlyFragmentTests, layout := .depthStencilAttachmentOptimal,
    resolve_target := some ⟨2⟩, use_previous_frame := false }

/-- A pass writing the depth attachment with a depth resolve target. -/
def passDepthResolve : RenderPass :=
  { name := "DepthPass", inputs := [], outputs := [outDepthResolve] }

def physColorReady : PhysicalResource :=
  { handle := ⟨1⟩, name := "Color", resource := .image faAB,
    current_layout := .colorAttachmentOptimal, current_stage := .colorAttachmentOutput,
    current_queue_family := QUEUE_FAMILY_IGNORED }

def physAux : PhysicalResource :=
  { handle := ⟨2⟩, name := "Aux", resource := .image faCD,
    current_layout := .undefined, current_stage := .none,
    current_queue_family := QUEUE_FAMILY_IGNORED }

/-- A registry where the color target is already in its required state and a
second image is still undefined. -/
def regMixed : RegMap := [(1, physColorReady), (2, physAux)]

/-- A pass whose first output is already satisfied and whose second needs a
transition. -/
def passMixed : RenderPass :=
  { name := "MixedPass", inputs := [],
    outputs := [{ handle := ⟨1⟩, stage := .colorAttachmentOutput,
                  layout := .colorAttachmentOptimal,
                  resolve_target := none, use_previous_frame := false },
                { handle := ⟨2⟩, stage := .fragmentShader,
                  layout := .shaderReadOnlyOptimal,
                  resolve_target := none, use_previous_frame := false }] }

/-- State of `regMixed` after running `passMixed` once. -/
def regMixed1 : RegMap :=
  [(1, physColorReady),
   (2, { physAux with current_layout := .shaderReadOnlyOptimal,
                      current_stage := .fragmentShader })]

/-- The single barrier `passMixed` synthesizes on `regMixed`. -/
def barrierMixed : Barrier :=
  { image := 3, old_layout := .undefined, new_layout := .shaderReadOnlyOptimal,
    aspect_mask := .color, level_count := 1, layer_count := 1,
    src_access_mask := .none, src_stage_mask := .none,
    dst_access_mask := .shaderRead, dst_stage_mask := .fragmentShader,
    src_queue_family_index := QUEUE_FAMILY_IGNORED,
    dst_queue_family_index := QUEUE_FAMILY_IGNORED }

def physFresh : PhysicalResource :=
  { handle := ⟨1⟩, name := "Target", resource := .image faAB,
    current_layout := .undefined, current_stage := .none,
    current_queue_family := QUEUE_FAMILY_IGNORED }

/-- A registry with a single undefined image resource. -/
def regSingle : RegMap := [(1, physFresh)]

/-- A pass that requires the same resource in two different (stage, layout)
states within one frame. -/
def passConflicting : RenderPass :=
  { name := "ConflictingPass", inputs := [],
    outputs := [{ handle := ⟨1⟩, stage := .colorAttachmentOutput,
                  layout := .colorAttachmentOptimal,
                  resolve_target := none, use_previous_frame := false },
                { handle := ⟨1⟩, stage := .fragmentShader,
                  layout := .shaderReadOnlyOptimal,
                  resolve_target := none, use_previous_frame := false }] }

def physBuf : PhysicalResource :=
  { handle := ⟨3⟩, name := "Staging", resource := .buffer ⟨⟨21⟩, ⟨22⟩⟩,
    current_layout := .undefined, current_stage := .none,
    current_queue_family := QUEUE_FAMILY_IGNORED }

/-- A registry holding a buffer-typed resource. -/
def regBuf : RegMap := [(3, physBuf)]

/-- A use-site requiring the buffer at the compute stage. -/
def useBuf : UseReq := { handle := ⟨3⟩, stage := .computeShader, layout := .general, useFrame := 0 }

/-- A pass using the buffer at its already-recorded stage but under a
different required layout: the buffer branch of `process_resource` skips the
layout comparison, so no barrier is synthesized although the required
(stage, layout) pair differs from the recorded one. -/
def passBufLayout : RenderPass :=
  { name := "BufferLayoutPass", inputs := [],
    outputs := [{ handle := ⟨3⟩, stage := .none, layout := .general,
                  resolve_target := none, use_previous_frame := false }] }

/-- A minimal graph as `BnanRenderGraph::new` leaves it: empty registry,
counter 0, backbuffer handle 0, one swapchain image. -/
def graphFresh : BnanRenderGraph :=
  { resources := [], resource_counter := 0, passes := [],
    current_frame := 0, swapchain_resource_handle := some ⟨0⟩,
    swapchain_images := [imgA] }

/-- A graph with one imported image resource, on frame slot 1. -/
def graphWithImage : BnanRenderGraph :=
  { resources := [(1, physDepth)], resource_counter := 2, passes := [],
    current_frame := 1, swapchain_resource_handle := some ⟨0⟩,
    swapchain_images := [imgA] }

/-- A color output with a resolve target, declared against `regDepth`'s
layout-compatible sibling. -/
def physColor : PhysicalResource :=
  { handle := ⟨1⟩, name := "Color", resource := .image faAB,
    current_layout := .undefined, current_stage := .none,
    current_queue_family := QUEUE_FAMILY_IGNORED }

def regColor : RegMap := [(1, physColor), (2, physResolve)]

def outColorResolve : RenderPassResource :=
  { handle := ⟨1⟩, stage := .colorAttachmentOutput, layout := .colorAttachmentOptimal,
    resolve_target := some ⟨2⟩, use_previous_frame := false }

/-- The color attachment descriptor built for `outColorResolve` on
`regColor`, frame 0. -/
def attColor : RenderingAttachmentInfo :=
  { image_view := 11, image_layout := .colorAttachmentOptimal,
    load_op := .clear, store_op := .store, clear_value := CLEAR_COLOR,
    resolve_image_view := some 13,
    resolve_image_layout := some .colorAttachmentOptimal,
    resolve_mode := some .average }

/-- The depth attachment descriptor built for `outDepthResolve` on
`regDepth`, frame 0. -/
def attDepth : RenderingAttachmentInfo :=
  { image_view := 11, image_layout := .depthStencilAttachmentOptimal,
    load_op := .clear, store_op := .store, clear_value := CLEAR_DEPTH_STENCIL,
    resolve_image_view := some 13,
    resolve_image_layout := some .depthStencilAttachmentOptimal,
    resolve_mode := some .max }

/-- A `pass.rs`-revision declaration used to exercise the attachment
constructors. -/
def prColor : Pass.RenderPassResource :=
  { handle := ⟨1⟩, usage := .ColorAttachment, resolve_target := some ⟨2⟩,
    is_temporal := false, config := Pass.AttachmentConfig.default }

/-! Registry lookup lemmas. -/

theorem lookupRes_append_of_none (k : Nat) (s : RegMap) :
    ∀ (r : RegMap), lookupRes r k = none → lookupRes (r ++ s) k = lookupRes s k := by
  intro r
  induction r with
  | nil => intro _; rfl
  | cons hd tl ih =>
    intro h
    obtain ⟨a, v⟩ := hd
    by_cases hak : a = k
    · rw [show lookupRes ((a, v) :: tl) k = some v from by rw [lookupRes, if_pos hak]] at h
      exact absurd h (by simp)
    · rw [lookupRes, if_neg hak] at h
      rw [List.cons_append, lookupRes, if_neg hak]
      exact ih h

theorem lookupRes_append_of_some (k : Nat) (v : PhysicalResource) (s : RegMap) :
    ∀ (r : RegMap), lookupRes r k = some v → lookupRes (r ++ s) k = some v := by
  intro r
  induction r with
  | nil => intro h; exact absurd h (by rw [lookupRes]; simp)
  | cons hd tl ih =>
    intro h
    obtain ⟨a, w⟩ := hd
    by_cases hak : a = k
    · rw [lookupRes, if_pos hak] at h
      rw [List.cons_append, lookupRes, if_pos hak]
      exact h
    · rw [lookupRes, if_neg hak] at h
      rw [List.cons_append, lookupRes, if_neg hak]
      exact ih h

theorem lookupRes_mapReplace (k : Nat) (v : PhysicalResource) :
    ∀ (r : RegMap) (k' : Nat),
      lookupRes (r.map fun p => if p.1 = k then (k, v) else p) k' =
        if k' = k then (lookupRes r k').map (fun _ => v) else lookupRes r k' := by
  intro r
  induction r with
  | nil =>
    intro k'
    rw [List.map_nil]
    by_cases hk' : k' = k <;> simp [lookupRes, hk']
  | cons hd tl ih =>
    intro k'
    obtain ⟨a, w⟩ := hd
    rw [List.map_cons]
    by_cases hak : a = k
    · have hhead : (if ((a, w) : Nat × PhysicalResource).1 = k then (k, v) else (a, w)) = (k, v) :=
        if_pos hak
      rw [hhead]
      by_cases hk' : k' = k
      · have hkk' : k = k' := hk'.symm
        have hak' : a = k' := hak.trans hkk'
        simp only [lookupRes, if_pos hkk', if_pos hk', if_pos hak']
        rfl
      · have hkk' : ¬ k = k' := fun h => hk' h.symm
        have hak' : ¬ a = k' := fun h => hk' (h.symm.trans hak)
        simp only [lookupRes, if_neg hkk', if_neg hk', if_neg hak']
        rw [ih k', if_neg hk']
    · have hhead : (if ((a, w) : Nat × PhysicalResource).1 = k then (k, v) else (a, w)) = (a, w) :=
        if_neg hak
      rw [hhead]
      by_cases hak' : a = k'
      · have hk'k : ¬ k' = k := fun h => hak (hak'.trans h)
        simp only [lookupRes, if_pos hak', if_neg hk'k]
      · simp only [lookupRes, if_neg hak']
        rw [ih k']

theorem lookupRes_insertEntry (r : RegMap) (k : Nat) (v : PhysicalResource) (k' : Nat) :
    lookupRes (insertEntry r k v) k' = if k' = k then some v else lookupRes r k' := by
  unfold insertEntry
  by_cases hs : (lookupRes r k).isSome
  · rw [if_pos hs, lookupRes_mapReplace]
    by_cases hk' : k' = k
    · subst hk'
      obtain ⟨w, hw⟩ := Option.isSome_iff_exists.mp hs
      simp [hw]
    · simp [hk']
  · rw [if_neg hs]
    have hn : lookupRes r k = none := Option.not_isSome_iff_eq_none.mp hs
    by_cases hk' : k' = k
    · subst hk'
      rw [lookupRes_append_of_none _ _ _ hn, if_pos rfl, lookupRes, if_pos rfl]
    · rw [if_neg hk']
      cases hlk : lookupRes r k' with
      | none =>
        rw [lookupRes_append_of_none _ _ _ hlk, lookupRes, if_neg (fun h => hk' h.symm)]
        rfl
      | some w =>
        rw [lookupRes_append_of_some _ _ _ _ hlk]

theorem lookupRes_mutateEntry (k : Nat) (f : PhysicalResource → PhysicalResource) :
    ∀ (r : RegMap) (k' : Nat),
      lookupRes (mutateEntry r k f) k' =
        if k' = k then (lookupRes r k').map f else lookupRes r k' := by
  intro r
  induction r with
  | nil =>
    intro k'
    by_cases hk' : k' = k <;> simp [mutateEntry, lookupRes, hk']
  | cons hd tl ih =>
    intro k'
    obtain ⟨a, w⟩ := hd
    rw [show mutateEntry ((a, w) :: tl) k f =
          (if (a, w).1 = k then ((a, w).1, f (a, w).2) else (a, w)) :: mutateEntry tl k f
        from rfl]
    by_cases hak : a = k
    · rw [show (if (a, w).1 = k then ((a, w).1, f (a, w).2) else (a, w)) = (a, f w) from by
        rw [if_pos hak]]
      by_cases hk' : k' = a
      · subst hk'
        rw [lookupRes, if_pos rfl, if_pos hak, lookupRes, if_pos rfl]
        rfl
      · have hk'k : ¬ k' = k := fun h => hk' (h.trans hak.symm)
        rw [lookupRes, if_neg (fun h => hk' h.symm), ih k', if_neg hk'k, if_neg hk'k,
          lookupRes, if_neg (fun h => hk' h.symm)]
    · rw [show (if (a, w).1 = k then ((a, w).1, f (a, w).2) else (a, w)) = (a, w) from by
        rw [if_neg hak]]
      by_cases hak' : a = k'
      · have hk'k : ¬ k' = k := fun h => hak (hak'.trans h)
        rw [lookupRes, if_pos hak', if_neg hk'k, lookupRes, if_pos hak']
      · rw [lookupRes, if_neg hak', ih k', lookupRes, if_neg hak']

theorem mutateEntry_of_lookup_none {k : Nat} (f : PhysicalResource → PhysicalResource) :
    ∀ {r : RegMap}, lookupRes r k = none → mutateEntry r k f = r := by
  intro r
  induction r with
  | nil => intro _; rfl
  | cons hd tl ih =>
    intro h
    obtain ⟨a, w⟩ := hd
    by_cases hak : a = k
    · rw [lookupRes, if_pos hak] at h
      exact absurd h (by simp)
    · rw [lookupRes, if_neg hak] at h
      rw [show mutateEntry ((a, w) :: tl) k f =
            (if (a, w).1 = k then ((a, w).1, f (a, w).2) else (a, w)) :: mutateEntry tl k f
          from rfl,
        if_neg hak, ih h]

/-! `process_resource` analysis. -/

/-- An unknown handle is skipped silently by `process_resource`. -/
theorem processResource_unknown {r : RegMap} {bs : List Barrier} {u : UseReq}
    (hn : lookupRes r u.handle.val = none) : processResource r bs u = .ok (r, bs) := by
  unfold processResource
  rw [hn]

theorem processResource_noBarrier {r : RegMap} {bs : List Barrier} {u : UseReq}
    (hn : noBarrierNeeded r u) : processResource r bs u = .ok (r, bs) := by
  unfold processResource
  split
  · rfl
  · rename_i p hl
    rw [if_neg]
    rintro (⟨hi, hne⟩ | hs)
    · exact hne ((hn p hl).2 hi)
    · exact hs (hn p hl).1

theorem processResource_ok_cases {r : RegMap} {bs : List Barrier} {u : UseReq}
    {r' : RegMap} {bs' : List Barrier}
    (hok : processResource r bs u = .ok (r', bs')) :
    (r' = r ∧ bs' = bs ∧ noBarrierNeeded r u) ∨
    ((∃ b, bs' = bs ++ [b]) ∧
     r' = mutateEntry r u.handle.val
       (fun q => { q with current_layout := u.layout, current_stage := u.stage }) ∧
     ∃ p, lookupRes r u.handle.val = some p ∧ p.resource.isImageKind = true) := by
  unfold processResource at hok
  split at hok
  · rename_i hl
    injection hok with h12
    injection h12 with h1 h2
    refine Or.inl ⟨h1.symm, h2.symm, fun p hp => ?_⟩
    rw [hl] at hp
    exact absurd hp (by simp)
  · rename_i p hl
    split at hok
    · rename_i hneed
      split at hok
      · rename_i img hres
        split at hok
        · exact absurd hok (by simp)
        · rename_i b hb
          injection hok with h12
          injection h12 with h1 h2
          exact Or.inr ⟨⟨b, h2.symm⟩, h1.symm, p, hl, by rw [hres]; rfl⟩
      · rename_i imgs hres
        split at hok
        · exact absurd hok (by simp)
        · rename_i img hi
          split at hok
          · exact absurd hok (by simp)
          · rename_i b hb
            injection hok with h12
            injection h12 with h1 h2
            exact Or.inr ⟨⟨b, h2.symm⟩, h1.symm, p, hl, by rw [hres]; rfl⟩
      · exact absurd hok (by simp)
    · rename_i hneed
      injection hok with h12
      injection h12 with h1 h2
      refine Or.inl ⟨h1.symm, h2.symm, fun p' hp' => ?_⟩
      rw [hl] at hp'
      injection hp' with hpp
      subst hpp
      push_neg at hneed
      exact ⟨hneed.2, fun hi => hneed.1 hi⟩

theorem processResource_preserves_lookup_ne {r : RegMap} {bs : List Barrier} {u : UseReq}
    {r' : RegMap} {bs' : List Barrier}
    (hok : processResource r bs u = .ok (r', bs')) {k : Nat} (hk : ¬ k = u.handle.val) :
    lookupRes r' k = lookupRes r k := by
  rcases processResource_ok_cases hok with ⟨rfl, -, -⟩ | ⟨-, rfl, -⟩
  · rfl
  · rw [lookupRes_mutateEntry, if_neg hk]

theorem processResource_preserves_none {r : RegMap} {bs : List Barrier} {u : UseReq}
    {r' : RegMap} {bs' : List Barrier}
    (hok : processResource r bs u = .ok (r', bs')) {k : Nat}
    (hn : lookupRes r k = none) : lookupRes r' k = none := by
  rcases processResource_ok_cases hok with ⟨rfl, -, -⟩ | ⟨-, rfl, -⟩
  · exact hn
  · rw [lookupRes_mutateEntry]
    by_cases hk : k = u.handle.val
    · rw [if_pos hk, hn]
      rfl
    · rw [if_neg hk]
      exact hn

theorem processResource_preserves_kind {r : RegMap} {bs : List Barrier} {u : UseReq}
    {r' : RegMap} {bs' : List Barrier}
    (hok : processResource r bs u = .ok (r', bs')) (k : Nat) :
    isImageRes r' k = isImageRes r k := by
  rcases processResource_ok_cases hok with ⟨rfl, -, -⟩ | ⟨-, rfl, -⟩
  · rfl
  · unfold isImageRes
    rw [lookupRes_mutateEntry]
    by_cases hk : k = u.handle.val
    · rw [if_pos hk]
      cases lookupRes r k with
      | none => rfl
      | some p => rfl
    · rw [if_neg hk]

theorem processResource_preserves_buffer {r : RegMap} {bs : List Barrier} {u : UseReq}
    {r' : RegMap} {bs' : List Barrier}
    (hok : processResource r bs u = .ok (r', bs')) (k : Nat) :
    isBufferRes r' k = isBufferRes r k := by
  rcases processResource_ok_cases hok with ⟨rfl, -, -⟩ | ⟨-, rfl, -⟩
  · rfl
  · unfold isBufferRes
    rw [lookupRes_mutateEntry]
    by_cases hk : k = u.handle.val
    · rw [if_pos hk]
      cases lookupRes r k with
      | none => rfl
      | some p => rfl
    · rw [if_neg hk]

theorem isImageKind_of_not_buffer : ∀ {t : ResourceType},
    t.isBufferKind = false → t.isImageKind = true := by
  intro t h
  cases t with
  | swapchainImage i => rfl
  | image i => rfl
  | buffer b => exact absurd h (by simp [ResourceType.isBufferKind])

theorem processResource_ok_establishes {r : RegMap} {bs : List Barrier} {u : UseReq}
    {r' : RegMap} {bs' : List Barrier}
    (hok : processResource r bs u = .ok (r', bs')) : noBarrierNeeded r' u := by
  rcases processResource_ok_cases hok with ⟨rfl, -, hnb⟩ | ⟨-, rfl, p, hl, hkind⟩
  · exact hnb
  · intro p' hp'
    rw [lookupRes_mutateEntry, if_pos rfl, hl] at hp'
    injection hp' with hpp
    subst hpp
    exact ⟨rfl, fun _ => rfl⟩

theorem noBarrierNeeded_mono {r : RegMap} {bs : List Barrier} {u v : UseReq}
    {r' : RegMap} {bs' : List Barrier}
    (hnb : noBarrierNeeded r u)
    (hok : processResource r bs v = .ok (r', bs'))
    (hcons : v.handle = u.handle → (v.stage, v.layout) = (u.stage, u.layout)) :
    noBarrierNeeded r' u := by
  by_cases hv : v.handle.val = u.handle.val
  · have hhandle : v.handle = u.handle := congrArg ResourceHandle.mk hv
    have hpair := hcons hhandle
    have hst : v.stage = u.stage := congrArg Prod.fst hpair
    have hly : v.layout = u.layout := congrArg Prod.snd hpair
    have hest := processResource_ok_establishes hok
    intro p hp
    rw [← hv] at hp
    obtain ⟨h1, h2⟩ := hest p hp
    exact ⟨h1.trans hst, fun hi => (h2 hi).trans hly⟩
  · have hlook := processResource_preserves_lookup_ne hok
      (show ¬ u.handle.val = v.handle.val from fun h => hv h.symm)
    intro p hp
    rw [hlook] at hp
    exact hnb p hp

/-! `synthFold` analysis. -/

theorem synthFold_cons {r : RegMap} {bs : List Barrier} {u : UseReq} {us : List UseReq}
    {r1 : RegMap} {b1 : List Barrier}
    (hok : synthFold r bs (u :: us) = .ok (r1, b1)) :
    ∃ r2 bs2, processResource r bs u = .ok (r2, bs2) ∧ synthFold r2 bs2 us = .ok (r1, b1) := by
  unfold synthFold at hok
  split at hok
  · exact absurd hok (by simp)
  · rename_i x r2 bs2 hp
    exact ⟨r2, bs2, hp, hok⟩

theorem synthFold_noop : ∀ (us : List UseReq) (r : RegMap) (bs : List Barrier),
    (∀ u ∈ us, noBarrierNeeded r u) → synthFold r bs us = .ok (r, bs) := by
  intro us
  induction us with
  | nil => intro r bs _; rfl
  | cons u us ih =>
    intro r bs h
    unfold synthFold
    rw [processResource_noBarrier (h u (List.mem_cons_self u us))]
    exact ih r bs (fun v hv => h v (List.mem_cons_of_mem u hv))

theorem synthFold_stable : ∀ (us : List UseReq) (r : RegMap) (bs : List Barrier)
    (r1 : RegMap) (b1 : List Barrier) (u : UseReq),
    noBarrierNeeded r u →
    (∀ v ∈ us, v.handle = u.handle → (v.stage, v.layout) = (u.stage, u.layout)) →
    synthFold r bs us = .ok (r1, b1) →
    noBarrierNeeded r1 u := by
  intro us
  induction us with
  | nil =>
    intro r bs r1 b1 u hnb _ hok
    injection hok with h12
    injection h12 with h1 h2
    exact h1 ▸ hnb
  | cons v vs ih =>
    intro r bs r1 b1 u hnb hcons hok
    obtain ⟨r2, bs2, hp, hok2⟩ := synthFold_cons hok
    exact ih r2 bs2 r1 b1 u
      (noBarrierNeeded_mono hnb hp (hcons v (List.mem_cons_self v vs)))
      (fun w hw => hcons w (List.mem_cons_of_mem v hw)) hok2

theorem ConsistentUses.tail {u : UseReq} {us : List UseReq}
    (h : ConsistentUses (u :: us)) : ConsistentUses us :=
  fun w hw v hv => h w (List.mem_cons_of_mem u hw) v (List.mem_cons_of_mem u hv)

theorem synthFold_post : ∀ (us : List UseReq) (r : RegMap) (bs : List Barrier)
    (r1 : RegMap) (b1 : List Barrier),
    ConsistentUses us →
    synthFold r bs us = .ok (r1, b1) →
    ∀ u ∈ us, noBarrierNeeded r1 u := by
  intro us
  induction us with
  | nil => intro r bs r1 b1 _ _ u hu; exact absurd hu (by simp)
  | cons w ws ih =>
    intro r bs r1 b1 hcons hok u hu
    obtain ⟨r2, bs2, hp, hok2⟩ := synthFold_cons hok
    rcases List.mem_cons.mp hu with rfl | hu'
    · refine synthFold_stable ws r2 bs2 r1 b1 u
        (processResource_ok_establishes hp) ?_ hok2
      intro v hv hvu
      exact hcons v (List.mem_cons_of_mem u hv) u (List.mem_cons_self u ws) hvu
    · exact ih r2 bs2 r1 b1 hcons.tail hok2 u hu'

/-! Counting lemmas relating the synthesized barriers to the spec-side
differing-use count. -/

theorem specDifferingCount_congr : ∀ (us : List UseReq)
    (σ τ : Nat → Option (PipelineStage2 × ImageLayout)),
    (∀ h, σ h = τ h) → specDifferingCount σ us = specDifferingCount τ us := by
  intro us
  induction us with
  | nil => intro σ τ _; rfl
  | cons u us ih =>
    intro σ τ hστ
    unfold specDifferingCount
    have hd : specDiffers σ u = specDiffers τ u := by
      unfold specDiffers
      rw [hστ]
    rw [hd]
    by_cases hb : specDiffers τ u = true
    · rw [if_pos hb, if_pos hb,
        ih (updateState σ u.handle.val (u.stage, u.layout))
           (updateState τ u.handle.val (u.stage, u.layout))
           (fun h => by unfold updateState; rw [hστ])]
    · rw [if_neg hb, if_neg hb, ih σ τ hστ]

theorem specDiffers_iff_need {r : RegMap} {u : UseReq} {p : PhysicalResource}
    (hl : lookupRes r u.handle.val = some p) (hi : p.resource.isImageKind = true) :
    specDiffers (stateOf r) u = true ↔
      ((p.resource.isImageKind = true ∧ p.current_layout ≠ u.layout) ∨
        p.current_stage ≠ u.stage) := by
  unfold specDiffers stateOf
  rw [hl]
  show decide ((p.current_stage, p.current_layout) ≠ (u.stage, u.layout)) = true ↔ _
  rw [decide_eq_true_eq]
  constructor
  · intro hne
    by_cases hst : p.current_stage = u.stage
    · refine Or.inl ⟨hi, fun hly => ?_⟩
      exact hne (by rw [hst, hly])
    · exact Or.inr hst
  · rintro (⟨-, hly⟩ | hst) <;> intro heq
    · exact hly (congrArg Prod.snd heq)
    · exact hst (congrArg Prod.fst heq)

theorem processResource_count_pos {r : RegMap} {bs : List Barrier} {u : UseReq}
    {r' : RegMap} {bs' : List Barrier}
    (himg : isImageRes r u.handle.val = true)
    (hdif : specDiffers (stateOf r) u = true)
    (hok : processResource r bs u = .ok (r', bs')) :
    bs'.length = bs.length + 1 ∧
    (∀ h, stateOf r' h = updateState (stateOf r) u.handle.val (u.stage, u.layout) h) := by
  obtain ⟨p, hl, hi⟩ : ∃ p, lookupRes r u.handle.val = some p ∧
      p.resource.isImageKind = true := by
    unfold isImageRes at himg
    cases hl : lookupRes r u.handle.val with
    | none => rw [hl] at himg; exact absurd himg (by simp)
    | some p => rw [hl] at himg; exact ⟨p, rfl, himg⟩
  rcases processResource_ok_cases hok with ⟨rfl, rfl, hnb⟩ | ⟨⟨b, rfl⟩, rfl, -⟩
  · obtain ⟨h1, h2⟩ := hnb p hl
    rw [specDiffers_iff_need hl hi] at hdif
    rcases hdif with ⟨-, hly⟩ | hst
    · exact absurd (h2 hi) hly
    · exact absurd h1 hst
  · refine ⟨by simp, fun h => ?_⟩
    unfold stateOf updateState
    rw [lookupRes_mutateEntry]
    by_cases hh : h = u.handle.val
    · rw [if_pos hh, if_pos hh, hh, hl]
      rfl
    · rw [if_neg hh, if_neg hh]

theorem processResource_count_neg {r : RegMap} {bs : List Barrier} {u : UseReq}
    {r' : RegMap} {bs' : List Barrier}
    (himg : isImageRes r u.handle.val = true)
    (hdif : specDiffers (stateOf r) u = false)
    (hok : processResource r bs u = .ok (r', bs')) :
    r' = r ∧ bs' = bs := by
  obtain ⟨p, hl, hi⟩ : ∃ p, lookupRes r u.handle.val = some p ∧
      p.resource.isImageKind = true := by
    unfold isImageRes at himg
    cases hl : lookupRes r u.handle.val with
    | none => rw [hl] at himg; exact absurd himg (by simp)
    | some p => rw [hl] at himg; exact ⟨p, rfl, himg⟩
  have hnn : ¬ ((p.resource.isImageKind = true ∧ p.current_layout ≠ u.layout) ∨
      p.current_stage ≠ u.stage) := by
    intro hneed
    rw [← specDiffers_iff_need hl hi] at hneed
    rw [hdif] at hneed
    exact absurd hneed (by simp)
  have hnb : noBarrierNeeded r u := by
    intro p' hp'
    rw [hl] at hp'
    injection hp' with hpp
    subst hpp
    push_neg at hnn
    exact ⟨hnn.2, fun hik => hnn.1 hik⟩
  rw [processResource_noBarrier hnb] at hok
  injection hok with h12
  injection h12 with h1 h2
  exact ⟨h1.symm, h2.symm⟩

theorem synthFold_length : ∀ (us : List UseReq) (r : RegMap) (bs : List Barrier)
    (r1 : RegMap) (b1 : List Barrier),
    (∀ u ∈ us, isBufferRes r u.handle.val = false) →
    synthFold r bs us = .ok (r1, b1) →
    b1.length = bs.length + specDifferingCount (stateOf r) us := by
  intro us
  induction us with
  | nil =>
    intro r bs r1 b1 _ hok
    injection hok with h12
    injection h12 with h1 h2
    rw [h2]
    rfl
  | cons u us ih =>
    intro r bs r1 b1 hbuf hok
    obtain ⟨r2, bs2, hp, hok2⟩ := synthFold_cons hok
    have hbuf2 : ∀ v ∈ us, isBufferRes r2 v.handle.val = false := by
      intro v hv
      rw [processResource_preserves_buffer hp]
      exact hbuf v (List.mem_cons_of_mem u hv)
    cases hl : lookupRes r u.handle.val with
    | none =>
      rw [processResource_unknown hl] at hp
      injection hp with h12
      injection h12 with h1 h2
      subst h1
      subst h2
      have hdf : specDiffers (stateOf r) u = false := by
        unfold specDiffers stateOf
        rw [hl]
        rfl
      unfold specDifferingCount
      rw [if_neg (by rw [hdf]; simp)]
      exact ih r bs r1 b1 hbuf2 hok2
    | some p =>
      have hbk : p.resource.isBufferKind = false := by
        have h0 := hbuf u (List.mem_cons_self u us)
        unfold isBufferRes at h0
        rw [hl] at h0
        exact h0
      have himgu : isImageRes r u.handle.val = true := by
        unfold isImageRes
        rw [hl]
        exact isImageKind_of_not_buffer hbk
      unfold specDifferingCount
      by_cases hdif : specDiffers (stateOf r) u = true
      · obtain ⟨hlen2, hstate⟩ := processResource_count_pos himgu hdif hp
        rw [if_pos hdif]
        have := ih r2 bs2 r1 b1 hbuf2 hok2
        rw [this, hlen2,
          specDifferingCount_congr us (stateOf r2)
            (updateState (stateOf r) u.handle.val (u.stage, u.layout)) hstate]
        omega
      · rw [if_neg hdif]
        obtain ⟨rfl, rfl⟩ :=
          processResource_count_neg himgu (Bool.not_eq_true _ ▸ hdif) hp
        exact ih r2 bs2 r1 b1 hbuf2 hok2

/-! Claim theorems. -/

/-- C1 (amended): when presentation-image acquisition reports staleness,
`execute` triggers surface recreation and treats the iteration as a
degenerate, no-work frame — no pass barriers are synthesized, the registry
and every other graph field are untouched — but the frame slot index does
NOT advance: the early return at `graph.rs` line 258 skips the advance at
line 608, so the slot is left unchanged. -/
theorem C1_theorem (g : BnanRenderGraph) (pres : PresentOutcome) :
    g.execute .outOfDate pres = .ok (g, degenerateEffects) ∧
    degenerateEffects.recreatedOnAcquire = true ∧
    degenerateEffects.passBarriers = ([] : List (List Barrier)) ∧
    (g, degenerateEffects).1.current_frame = g.current_frame :=
  ⟨rfl, rfl, rfl, rfl⟩

/-- C1 counterexample: on a stale acquisition from slot 0 the resulting slot
is still 0, whereas the claim ("frame index still advances by one modulo N")
predicts (0 + 1) % FRAMES_IN_FLIGHT = 1. -/
theorem C1_counterexample :
    (graphFresh.execute .outOfDate .ok).map (fun x => x.1.current_frame) = .ok 0 ∧
    graphFresh.current_frame = 0 ∧
    (0 : Nat) ≠ (0 + 1) % FRAMES_IN_FLIGHT :=
  ⟨rfl, rfl, by decide⟩

/-- C4 (amended): at each acquisition the freshly acquired image is bound
under the unchanged backbuffer handle before any pass runs, and the tracked
layout is reset to undefined — but the tracked stage is set to
`COLOR_ATTACHMENT_OUTPUT` (the acquire-semaphore wait stage), not to the
undefined/none stage. -/
theorem C4_theorem (g : BnanRenderGraph) (img : BnanImage) (h : ResourceHandle)
    (hh : g.swapchain_resource_handle = some h) :
    (bindSwapchainResource g img).2 = h ∧
    (bindSwapchainResource g img).1.swapchain_resource_handle = some h ∧
    (bindSwapchainResource g img).1.resource_counter = g.resource_counter ∧
    lookupRes (bindSwapchainResource g img).1.resources h.val =
      some (backbufferPhys h img) ∧
    (backbufferPhys h img).current_layout = ImageLayout.undefined ∧
    (backbufferPhys h img).current_stage = PipelineStage2.colorAttachmentOutput ∧
    (∀ k, ¬ k = h.val →
      lookupRes (bindSwapchainResource g img).1.resources k = lookupRes g.resources k) ∧
    (∀ idx scImg pres, g.swapchain_images.get? idx = some scImg →
      g.execute (.ok idx) pres =
        executeAcquired (bindSwapchainResource g scImg).1
          (bindSwapchainResource g scImg).2 scImg pres) := by
  have hbind : ∀ im : BnanImage, bindSwapchainResource g im =
      ({ g with resources := insertEntry g.resources h.val (backbufferPhys h im) }, h) := by
    intro im
    unfold bindSwapchainResource
    rw [hh]
  refine ⟨by rw [hbind], by rw [hbind]; exact hh, by rw [hbind], ?_, rfl, rfl, ?_, ?_⟩
  · rw [hbind]
    show lookupRes (insertEntry g.resources h.val (backbufferPhys h img)) h.val = _
    rw [lookupRes_insertEntry, if_pos rfl]
  · intro k hk
    rw [hbind]
    show lookupRes (insertEntry g.resources h.val (backbufferPhys h img)) k = _
    rw [lookupRes_insertEntry, if_neg hk]
  · intro idx scImg pres hsc
    have hstep : g.execute (.ok idx) pres =
        match g.swapchain_images.get? idx with
        | Option.none => .error .frameOutOfRange
        | Option.some im =>
          executeAcquired (bindSwapchainResource g im).1
            (bindSwapchainResource g im).2 im pres := rfl
    rw [hstep, hsc]

/-- C4 witness: the concrete fresh graph binds `imgA` under its existing
backbuffer handle 0. -/
theorem C4_witness :
    lookupRes (bindSwapchainResource graphFresh imgA).1.resources
      (ResourceHandle.mk 0).val = some (backbufferPhys ⟨0⟩ imgA) :=
  (C4_theorem graphFresh imgA ⟨0⟩ rfl).2.2.2.1

/-- C4 counterexample: the bound backbuffer's tracked stage is
`colorAttachmentOutput`, not the undefined/none stage the claim requires
("tracked state ... reset to undefined"). -/
theorem C4_counterexample :
    (lookupRes (bindSwapchainResource graphFresh imgA).1.resources 0).map
      (fun p => p.current_stage) = some PipelineStage2.colorAttachmentOutput ∧
    PipelineStage2.colorAttachmentOutput ≠ PipelineStage2.none :=
  ⟨rfl, by decide⟩

/-- C5: for every N ≥ 2 and slot c < N, the temporal slot (c + N − 1) mod N
differs from c; `FRAMES_IN_FLIGHT` satisfies N ≥ 2; and
`get_previous_frame_image` resolves the handle's per-frame image array at
exactly that slot. -/
theorem C5_theorem :
    (∀ N c : Nat, 2 ≤ N → c < N → (c + N - 1) % N ≠ c) ∧
    2 ≤ FRAMES_IN_FLIGHT ∧
    (∀ (g : BnanRenderGraph) (h : ResourceHandle) (p : PhysicalResource)
      (imgs : FrameArray BnanImage) (c : Nat),
      lookupRes g.resources h.val = some p → p.resource = .image imgs →
      g.get_previous_frame_image h c =
        imgs.get? ((c + FRAMES_IN_FLIGHT - 1) % FRAMES_IN_FLIGHT)) := by
  refine ⟨?_, by decide, ?_⟩
  · intro N c hN hc
    match c with
    | 0 =>
      have h1 : (0 + N - 1) % N = N - 1 := by
        rw [Nat.zero_add]
        exact Nat.mod_eq_of_lt (by omega)
      omega
    | c + 1 =>
      rw [show c + 1 + N - 1 = c + N from by omega, Nat.add_mod_right,
        Nat.mod_eq_of_lt (show c < N from by omega)]
      omega
  · intro g h p imgs c hp hres
    unfold BnanRenderGraph.get_previous_frame_image BnanRenderGraph.get_image
    rw [hp, Option.some_bind, hres]

/-- C5 witness: at N = 3, slot 1 maps to temporal slot 0 ≠ 1; on the
concrete graph, the previous-frame image of slot 1 is the slot-0 image. -/
theorem C5_witness :
    ((1 + 3 - 1) % 3 ≠ 1) ∧
    graphWithImage.get_previous_frame_image ⟨1⟩ 1 =
      faAB.get? ((1 + FRAMES_IN_FLIGHT - 1) % FRAMES_IN_FLIGHT) :=
  ⟨C5_theorem.1 3 1 (by decide) (by decide),
   C5_theorem.2.2 graphWithImage ⟨1⟩ physDepth faAB 1 rfl rfl⟩

/-- C7: `update_render_image` on a known handle keeps the entry's identity
and name, replaces only the backing images, resets the tracked layout and
stage to the undefined state, issues no new handle (counter and key set
unchanged), and leaves every other registry entry and graph field
untouched. -/
theorem C7_theorem (g : BnanRenderGraph) (handle : ResourceHandle)
    (images : FrameArray BnanImage) (p : PhysicalResource)
    (hp : lookupRes g.resources handle.val = some p) :
    lookupRes (g.update_render_image handle images).resources handle.val =
      some { p with resource := .image images, current_layout := .undefined,
                    current_stage := .none } ∧
    ({ p with resource := ResourceType.image images,
              current_layout := ImageLayout.undefined,
              current_stage := PipelineStage2.none } : PhysicalResource).handle = p.handle ∧
    ({ p with resource := ResourceType.image images,
              current_layout := ImageLayout.undefined,
              current_stage := PipelineStage2.none } : PhysicalResource).name = p.name ∧
    (∀ k, ¬ k = handle.val →
      lookupRes (g.update_render_image handle images).resources k =
        lookupRes g.resources k) ∧
    (∀ k, (lookupRes (g.update_render_image handle images).resources k).isSome =
      (lookupRes g.resources k).isSome) ∧
    (g.update_render_image handle images).resource_counter = g.resource_counter ∧
    (g.update_render_image handle images).swapchain_resource_handle =
      g.swapchain_resource_handle ∧
    (g.update_render_image handle images).passes = g.passes ∧
    (g.update_render_image handle images).current_frame = g.current_frame := by
  have hres : (g.update_render_image handle images).resources =
      mutateEntry g.resources handle.val (fun physical =>
        { physical with resource := .image images, current_layout := .undefined,
                        current_stage := .none }) := rfl
  refine ⟨?_, rfl, rfl, ?_, ?_, rfl, rfl, rfl, rfl⟩
  · rw [hres, lookupRes_mutateEntry, if_pos rfl, hp]
    rfl
  · intro k hk
    rw [hres, lookupRes_mutateEntry, if_neg hk]
  · intro k
    rw [hres, lookupRes_mutateEntry]
    by_cases hk : k = handle.val
    · rw [if_pos hk]
      cases lookupRes g.resources k <;> rfl
    · rw [if_neg hk]

/-- C7 witness: updating the imported handle 1 swaps in the new backing
images and resets the tracked state, keeping identity and name. -/
theorem C7_witness :
    lookupRes (graphWithImage.update_render_image ⟨1⟩ faCD).resources
      (ResourceHandle.mk 1).val =
      some { physDepth with resource := .image faCD, current_layout := .undefined,
                            current_stage := .none } :=
  (C7_theorem graphWithImage ⟨1⟩ faCD physDepth rfl).1

/-- C8: `get_image` on a never-imported handle returns `none` for every
frame slot rather than failing. -/
theorem C8_theorem (g : BnanRenderGraph) (handle : ResourceHandle)
    (hn : lookupRes g.resources handle.val = none) :
    ∀ frame, g.get_image handle frame = none := by
  intro frame
  unfold BnanRenderGraph.get_image
  rw [hn]
  rfl

/-- C8 witness: the fresh graph knows no handle 7. -/
theorem C8_witness : graphFresh.get_image ⟨7⟩ 0 = none :=
  C8_theorem graphFresh ⟨7⟩ rfl 0

/-- C9: a use of a buffer-typed resource whose recorded stage differs from
the required stage makes barrier synthesis hit the unimplemented
`todo!("Buffer barriers")` branch — a panic, not a barrier or an error
return. -/
theorem C9_theorem (r : RegMap) (bs : List Barrier) (u : UseReq)
    (p : PhysicalResource) (bufs : FrameArray BnanBuffer)
    (hl : lookupRes r u.handle.val = some p)
    (hb : p.resource = .buffer bufs)
    (hs : p.current_stage ≠ u.stage) :
    processResource r bs u = .error .todoBufferBarriers := by
  unfold processResource
  split
  · rename_i hl'
    rw [hl] at hl'
    exact absurd hl' (by simp)
  · rename_i phys hl'
    rw [hl] at hl'
    injection hl' with hpp
    subst hpp
    rw [if_pos (Or.inr hs), hb]

/-- C9 witness: the concrete buffer registry panics on a compute-stage use. -/
theorem C9_witness : processResource regBuf [] useBuf = .error .todoBufferBarriers :=
  C9_theorem regBuf [] useBuf physBuf ⟨⟨21⟩, ⟨22⟩⟩ rfl rfl (by decide)

/-- C10: `update_render_image` with an unknown handle is a silent no-op —
the whole graph (handle table, backing images, tracked state, counter) is
returned unchanged. -/
theorem C10_theorem (g : BnanRenderGraph) (handle : ResourceHandle)
    (images : FrameArray BnanImage)
    (hn : lookupRes g.resources handle.val = none) :
    g.update_render_image handle images = g := by
  unfold BnanRenderGraph.update_render_image
  rw [mutateEntry_of_lookup_none _ hn]

/-- C10 witness: updating unknown handle 9 leaves the concrete graph
unchanged. -/
theorem C10_witness :
    graphWithImage.update_render_image ⟨9⟩ faCD = graphWithImage :=
  C10_theorem graphWithImage ⟨9⟩ faCD rfl

/-- C2 (amended): every resolve target of a pass output is treated as an
additional use during barrier synthesis.  A color-resolve target is treated
as ColorAttachment (color-output stage, color-attachment layout, matching
the usage table).  A depth-resolve target is processed with the SAME
required layout (depth-attachment) and the SAME required stage
(early-fragment-tests) as the primary depth attachment — barrier synthesis
hard-codes these and does not use the DepthStencilResolve usage-table entry,
whose distinct color-output stage is therefore not the stage the resolve
target is synchronized at. -/
theorem C2_theorem (p : RenderPass) (fi : Nat) (o : RenderPassResource)
    (rh : ResourceHandle) (ho : o ∈ p.outputs) (hrt : o.resolve_target = some rh) :
    ({ handle := rh, stage := (resolveUseReq o.layout).1,
       layout := (resolveUseReq o.layout).2, useFrame := fi } : UseReq) ∈ passUses p fi ∧
    (¬ o.layout = ImageLayout.depthStencilAttachmentOptimal →
      resolveUseReq o.layout =
        ((ResourceUsage.ColorAttachment.get_stage_and_access).1,
         ResourceUsage.ColorAttachment.get_layout)) ∧
    (o.layout = ImageLayout.depthStencilAttachmentOptimal →
      (resolveUseReq o.layout).2 = ResourceUsage.DepthStencilResolve.get_layout ∧
      (resolveUseReq o.layout).1 =
        (ResourceUsage.DepthStencilAttachment.get_stage_and_access).1 ∧
      ¬ (resolveUseReq o.layout).1 =
        (ResourceUsage.DepthStencilResolve.get_stage_and_access).1) := by
  refine ⟨?_, ?_, ?_⟩
  · unfold passUses
    refine List.mem_append_right _ (List.mem_flatMap.mpr ⟨o, ho, ?_⟩)
    unfold outputUses
    rw [hrt]
    exact List.mem_cons_of_mem _ (List.mem_singleton.mpr rfl)
  · intro hne
    cases hcase : o.layout <;> first | rfl | exact absurd hcase hne
  · intro hd
    rw [hd]
    exact ⟨rfl, rfl, by decide⟩

/-- C2 witness: the depth pass's resolve target appears as an additional
use-site of the pass. -/
theorem C2_witness :
    ({ handle := ⟨2⟩, stage := (resolveUseReq outDepthResolve.layout).1,
       layout := (resolveUseReq outDepthResolve.layout).2,
       useFrame := 0 } : UseReq) ∈ passUses passDepthResolve 0 :=
  (C2_theorem passDepthResolve 0 outDepthResolve ⟨2⟩ (by decide) rfl).1

/-- C2 counterexample: running barrier synthesis on a depth output with a
resolve target leaves the resolve resource's recorded stage at
early-fragment-tests, not at the color-output stage the DepthStencilResolve
usage-table entry (and the claim) prescribe. -/
theorem C2_counterexample :
    stageAfterPass regDepth passDepthResolve 0 2 =
      .ok (some PipelineStage2.earlyFragmentTests) ∧
    PipelineStage2.earlyFragmentTests ≠
      (ResourceUsage.DepthStencilResolve.get_stage_and_access).1 :=
  ⟨rfl, by decide⟩

/-- C6: whenever an attachment descriptor embeds a resolve target, it
carries the usage-correct resolve mode — AVERAGE for a color attachment, MAX
for a depth attachment — and its resolve image layout equals the
attachment's own layout.  This holds for the descriptors `execute` builds
(`buildColorAttachmentInfo` / `buildDepthAttachmentInfo`) and for the
`pass.rs` constructors. -/
theorem C6_theorem :
    (∀ (r : RegMap) (o : RenderPassResource) (fi : Nat) (att : RenderingAttachmentInfo),
      buildColorAttachmentInfo r o fi = some att →
      (att.resolve_mode = none ∧ att.resolve_image_view = none) ∨
      (att.resolve_mode = some ResolveMode.average ∧
        att.resolve_image_layout = some att.image_layout)) ∧
    (∀ (r : RegMap) (o : RenderPassResource) (fi : Nat) (att : RenderingAttachmentInfo),
      buildDepthAttachmentInfo r o fi = some att →
      (att.resolve_mode = none ∧ att.resolve_image_view = none) ∨
      (att.resolve_mode = some ResolveMode.max ∧
        att.resolve_image_layout = some att.image_layout)) ∧
    (∀ (pr : Pass.RenderPassResource) (view rv : Nat),
      (pr.create_color_attachment_info view (some rv)).resolve_mode =
        some ResolveMode.average ∧
      (pr.create_color_attachment_info view (some rv)).resolve_image_layout =
        some (pr.create_color_attachment_info view (some rv)).image_layout) ∧
    (∀ (pr : Pass.RenderPassResource) (view rv : Nat),
      (pr.create_depth_attachment_info view (some rv)).resolve_mode =
        some ResolveMode.max ∧
      (pr.create_depth_attachment_info view (some rv)).resolve_image_layout =
        some (pr.create_depth_attachment_info view (some rv)).image_layout) := by
  refine ⟨?_, ?_, fun pr view rv => ⟨rfl, rfl⟩, fun pr view rv => ⟨rfl, rfl⟩⟩
  · intro r o fi att hatt
    unfold buildColorAttachmentInfo at hatt
    split at hatt
    · cases himg : outputImage r o.handle fi with
      | none => rw [himg] at hatt; exact absurd hatt (by simp)
      | some image =>
        rw [himg, Option.map_some'] at hatt
        injection hatt with hatt'
        subst hatt'
        cases hrt : o.resolve_target with
        | none => exact Or.inl ⟨rfl, rfl⟩
        | some rh =>
          cases hri : outputImage r rh fi with
          | none =>
            left
            refine ⟨?_, ?_⟩ <;> simp [hri]
          | some ri =>
            right
            refine ⟨?_, ?_⟩ <;> simp [hri]
    · exact absurd hatt (by simp)
  · intro r o fi att hatt
    unfold buildDepthAttachmentInfo at hatt
    split at hatt
    · cases himg : outputImage r o.handle fi with
      | none => rw [himg] at hatt; exact absurd hatt (by simp)
      | some image =>
        rw [himg, Option.map_some'] at hatt
        injection hatt with hatt'
        subst hatt'
        cases hrt : o.resolve_target with
        | none => exact Or.inl ⟨rfl, rfl⟩
        | some rh =>
          cases hri : outputImage r rh fi with
          | none =>
            left
            refine ⟨?_, ?_⟩ <;> simp [hri]
          | some ri =>
            right
            refine ⟨?_, ?_⟩ <;> simp [hri]
    · exact absurd hatt (by simp)

/-- C6 witness: concrete color and depth descriptors with resolve targets
carry AVERAGE / MAX and the matching resolve layout. -/
theorem C6_witness :
    ((attColor.resolve_mode = none ∧ attColor.resolve_image_view = none) ∨
      (attColor.resolve_mode = some ResolveMode.average ∧
        attColor.resolve_image_layout = some attColor.image_layout)) ∧
    ((attDepth.resolve_mode = none ∧ attDepth.resolve_image_view = none) ∨
      (attDepth.resolve_mode = some ResolveMode.max ∧
        attDepth.resolve_image_layout = some attDepth.image_layout)) ∧
    ((prColor.create_color_attachment_info 11 (some 13)).resolve_mode =
        some ResolveMode.average ∧
      (prColor.create_color_attachment_info 11 (some 13)).resolve_image_layout =
        some (prColor.create_color_attachment_info 11 (some 13)).image_layout) ∧
    ((prColor.create_depth_attachment_info 11 (some 13)).resolve_mode =
        some ResolveMode.max ∧
      (prColor.create_depth_attachment_info 11 (some 13)).resolve_image_layout =
        some (prColor.create_depth_attachment_info 11 (some 13)).image_layout) :=
  ⟨C6_theorem.1 regColor outColorResolve 0 attColor rfl,
   C6_theorem.2.1 regDepth outDepthResolve 0 attDepth rfl,
   C6_theorem.2.2.1 prColor 11 13,
   C6_theorem.2.2.2 prColor 11 13⟩

/-- C3 (amended): for every pass, the batch of synthesized barriers is
recorded as at most one synchronization command before the pass body, and
the number of barriers equals the count of its use-sites (inputs, then each
output immediately followed by its resolve target) whose required
(stage, layout) differs from the resource's previously recorded state,
PROVIDED no use-site refers to a buffer-typed resource: for a buffer-typed
use the code compares only the stage and ignores the required layout, so a
layout-only difference is counted by the spec but synthesizes nothing (first
counterexample conjuncts).  Re-running the identical pass with no
intervening external state change synthesizes zero barriers PROVIDED the
pass does not require the same resource in two different (stage, layout)
states (last counterexample conjuncts). -/
theorem C3_theorem (r : RegMap) (p : RenderPass) (fi : Nat) (r1 : RegMap)
    (b1 : List Barrier)
    (hok : synthPassBarriers r p fi = .ok (r1, b1)) :
    ((∀ u ∈ passUses p fi, isBufferRes r u.handle.val = false) →
      b1.length = specDifferingCount (stateOf r) (passUses p fi)) ∧
    (recordSync b1).length ≤ 1 ∧
    (¬ b1 = [] → recordSync b1 = [SyncCommand.pipelineBarrier2 b1]) ∧
    (ConsistentUses (passUses p fi) → synthPassBarriers r1 p fi = .ok (r1, [])) := by
  refine ⟨?_, ?_, ?_, ?_⟩
  · intro hbuf
    have h := synthFold_length (passUses p fi) r [] r1 b1 hbuf hok
    simpa using h
  · unfold recordSync
    split
    · simp
    · simp
  · intro hne
    unfold recordSync
    rw [if_neg (fun h => hne (List.isEmpty_iff.mp h))]
  · intro hcons
    exact synthFold_noop (passUses p fi) r1 []
      (synthFold_post (passUses p fi) r [] r1 b1 hcons hok)

/-- C3 witness: on the concrete mixed registry (no buffer uses, consistent
requirements) exactly one use-site differs, one barrier is synthesized in
one command, and the identical re-run synthesizes zero barriers. -/
theorem C3_witness :
    synthPassBarriers regMixed passMixed 0 = .ok (regMixed1, [barrierMixed]) ∧
    [barrierMixed].length = specDifferingCount (stateOf regMixed) (passUses passMixed 0) ∧
    (recordSync [barrierMixed]).length ≤ 1 ∧
    recordSync [barrierMixed] = [SyncCommand.pipelineBarrier2 [barrierMixed]] ∧
    synthPassBarriers regMixed1 passMixed 0 = .ok (regMixed1, []) :=
  ⟨rfl,
   (C3_theorem regMixed passMixed 0 regMixed1 [barrierMixed] rfl).1 (by decide),
   (C3_theorem regMixed passMixed 0 regMixed1 [barrierMixed] rfl).2.1,
   (C3_theorem regMixed passMixed 0 regMixed1 [barrierMixed] rfl).2.2.1 (by decide),
   (C3_theorem regMixed passMixed 0 regMixed1 [barrierMixed] rfl).2.2.2
     (by unfold ConsistentUses; decide)⟩

/-- C3 counterexample, both halves of the claim as stated.  Count half: a
buffer use whose stage matches the recorded stage but whose required layout
differs synthesizes no barrier, while its required (stage, layout) pair
differs from the recorded state and so is counted — 0 barriers against a
differing-use count of 1.  Idempotence half: a pass requiring the same
resource in two different (stage, layout) states synthesizes two barriers —
not zero — when re-run immediately with no intervening external state
change. -/
theorem C3_counterexample :
    synthPassBarriers regBuf passBufLayout 0 = .ok (regBuf, ([] : List Barrier)) ∧
    specDifferingCount (stateOf regBuf) (passUses passBufLayout 0) = 1 ∧
    ¬ (([] : List Barrier).length =
        specDifferingCount (stateOf regBuf) (passUses passBufLayout 0)) ∧
    rerunBarrierCount regSingle passConflicting 0 = .ok 2 ∧
    ¬ (2 : Nat) = 0 :=
  ⟨rfl, by decide, by decide, rfl, by decide⟩

end BnanR
